import Mathlib

/-!
Shallow embedding of the legal-case pipeline (chatgpt_client.py and
main_json_processor.py) and verification of its specification claims.

Python strings are modelled as `List Char`, Python floats as `ℚ`,
`json.loads` as an abstract parameter `loads : List Char → Option Json`,
and the HTTP layer as a response oracle `Nat → ApiResponse` indexed by
attempt number.  Randomness (`random.random()`) is passed in explicitly
as a draw `rand : Nat → ℚ` in `[0, 1]`.
-/

/-! ## Python-style string operations over `List Char` -/

def backquote : Char := Char.ofNat 96

/-- ASCII whitespace recognised by Python's `str.strip()`. -/
def isSpaceChar (c : Char) : Bool :=
  c = ' ' || c = '\t' || c = '\n' || c = '\r' || c = Char.ofNat 11 || c = Char.ofNat 12

/-- Remove leading whitespace (the left half of Python `str.strip()`). -/
def stripLeft : List Char → List Char
  | [] => []
  | c :: t => if isSpaceChar c then stripLeft t else c :: t

/-- Remove trailing whitespace. -/
def stripRight (l : List Char) : List Char :=
  (stripLeft l.reverse).reverse

/-- Python `str.strip()`: remove whitespace from both ends. -/
def pyStrip (l : List Char) : List Char :=
  stripLeft (stripRight l)

/-- Python `str.startswith`. -/
def startsWithL : List Char → List Char → Bool
  | [], _ => true
  | _ :: _, [] => false
  | p :: ps, c :: cs => if p = c then startsWithL ps cs else false

/-- Python `str.endswith`. -/
def endsWithL (p l : List Char) : Bool :=
  startsWithL p.reverse l.reverse

/-- Python slice `l[:-n]`. -/
def dropRightL (n : Nat) (l : List Char) : List Char :=
  (l.reverse.drop n).reverse

def fence3 : List Char := [backquote, backquote, backquote]

def fenceJsonLit : List Char := fence3 ++ ['j', 's', 'o', 'n']

/-- The code-fence cleaning applied to the message content in the
HTTP 200 branch of `analyze_case` (chatgpt_client.py lines 152-159). -/
def cleanContent (content : List Char) : List Char :=
  let c1 := pyStrip content
  let c2 := if startsWithL fenceJsonLit c1 then c1.drop 7
            else if startsWithL fence3 c1 then c1.drop 3
            else c1
  let c3 := if endsWithL fence3 c2 then dropRightL 3 c2 else c2
  pyStrip c3

/-! ## JSON values and Python truthiness -/

/-- JSON values, as produced by `json.loads` (numbers collapsed to `ℚ`). -/
inductive Json where
  | null : Json
  | bool (b : Bool) : Json
  | num (q : ℚ) : Json
  | str (s : List Char) : Json
  | arr (elems : List Json) : Json
  | obj (fields : List (List Char × Json)) : Json

/-- Python truthiness of a parsed JSON value (`if x:`). -/
def Json.truthy : Json → Bool
  | .null => false
  | .bool b => b
  | .num q => if q = 0 then false else true
  | .str s => !s.isEmpty
  | .arr xs => !xs.isEmpty
  | .obj fs => !fs.isEmpty

/-! ## Rate-limit hint extraction (`_handle_rate_limit_error`) -/

/-- Python `needle in haystack` substring test. -/
def listContains (needle : List Char) : List Char → Bool
  | [] => startsWithL needle []
  | c :: t => startsWithL needle (c :: t) || listContains needle t

def digitsToNat (ds : List Char) : Nat :=
  ds.foldl (fun a c => a * 10 + (c.toNat - 48)) 0

def tryAgainLit : List Char := "Try again in".toList

def tryAgainSp : List Char := "Try again in ".toList

def rateLimitLit : List Char := "Rate limit".toList

def quotaLit : List Char := "quota".toList

/-- Match of the regex `Try again in (\d+)s` at the start of `l`. -/
def matchTryS (l : List Char) : Option Nat :=
  if startsWithL tryAgainSp l then
    let rest := l.drop tryAgainSp.length
    let ds := rest.takeWhile Char.isDigit
    if ds.isEmpty then none
    else
      match rest.drop ds.length with
      | c :: _ => if c = 's' then some (digitsToNat ds) else none
      | [] => none
  else none

/-- `re.search` for `Try again in (\d+)s`: leftmost match. -/
def searchTryS : List Char → Option Nat
  | [] => none
  | c :: t =>
    match matchTryS (c :: t) with
    | some v => some v
    | none => searchTryS t

/-- Match of the regex `Try again in (\d+)m(\d+)s` at the start of `l`. -/
def matchTryMS (l : List Char) : Option Nat :=
  if startsWithL tryAgainSp l then
    let rest := l.drop tryAgainSp.length
    let ds1 := rest.takeWhile Char.isDigit
    if ds1.isEmpty then none
    else
      match rest.drop ds1.length with
      | c :: r2 =>
        if c = 'm' then
          let ds2 := r2.takeWhile Char.isDigit
          if ds2.isEmpty then none
          else
            match r2.drop ds2.length with
            | c2 :: _ => if c2 = 's' then some (digitsToNat ds1 * 60 + digitsToNat ds2) else none
            | [] => none
        else none
      | [] => none
  else none

/-- `re.search` for `Try again in (\d+)m(\d+)s`: leftmost match. -/
def searchTryMS : List Char → Option Nat
  | [] => none
  | c :: t =>
    match matchTryMS (c :: t) with
    | some v => some v
    | none => searchTryMS t

/-- `_handle_rate_limit_error` (chatgpt_client.py lines 84-112).
`retryAfter` is the parsed `Retry-After` header when present;
`errorMessage` is the error message found in the response body, `none`
when the body is not JSON or carries no error message (in which case the
Python code's `except` swallows the failure and returns `None`). -/
def handle_rate_limit_error (retryAfter : Option Nat)
    (errorMessage : Option (List Char)) : Option Nat :=
  match retryAfter with
  | some t => some t
  | none =>
    match errorMessage with
    | none => none
    | some msg =>
      if listContains rateLimitLit msg || listContains quotaLit (msg.map Char.toLower) then
        if listContains tryAgainLit msg then
          match searchTryS msg with
          | some v => some v
          | none => searchTryMS msg
        else none
      else none

/-! ## Exponential backoff (`_calculate_wait_time`) -/

/-- `base_wait = min(self.backoff_base ** attempt, self.backoff_cap)`. -/
def base_wait (base cap : ℚ) (attempt : Nat) : ℚ :=
  min (base ^ attempt) cap

/-- `_calculate_wait_time` (chatgpt_client.py lines 77-82), with the
random draw `r = random.random()` made explicit. -/
def calculate_wait_time (base cap : ℚ) (attempt : Nat) (r : ℚ) : ℚ :=
  let w := base_wait base cap attempt
  max 1 (w + w * (1/5) * (2 * r - 1))

/-! ## The LLM call orchestrator (`analyze_case`) -/

/-- Outcome of one `requests.post` in `analyze_case`: an HTTP response
(status, message content at the fixed extraction path, optional parsed
`Retry-After` header, optional error message in the body), or one of the
transport-level exceptions the code catches. -/
inductive ApiResponse where
  | http (status : Nat) (content : List Char) (retryAfter : Option Nat)
      (errorMessage : Option (List Char)) : ApiResponse
  | timeout : ApiResponse
  | connectionError : ApiResponse
  | requestException : ApiResponse

/-- The distinct `return None` sites of `analyze_case`, one constructor
per failure return path. -/
inductive FailKind where
  | exhausted : FailKind
  | parseFailure : FailKind
  | clientError (status : Nat) : FailKind
  | otherStatus (status : Nat) : FailKind
  | timeoutFailure : FailKind
  | connectionFailure : FailKind
  | requestFailure : FailKind

inductive CallResult where
  | success (j : Json) : CallResult
  | failure (k : FailKind) : CallResult

/-- Observable trace of one `analyze_case` run: its return value, how
many HTTP attempts (`requests.post` calls) were issued, and the sleeps
performed, in order. -/
structure Outcome where
  call : CallResult
  attempts : Nat
  waits : List ℚ

def withWait (w : ℚ) (o : Outcome) : Outcome :=
  { o with waits := w :: o.waits }

section Orchestrator

variable (loads : List Char → Option Json) (responses : Nat → ApiResponse)
variable (rand : Nat → ℚ) (base cap : ℚ)

/-- The retry loop of `analyze_case` (chatgpt_client.py lines 134-251).
`attempt` is the current loop index; `fuel` is the number of loop
iterations remaining (`max_retries - attempt`), so Python's last-attempt
test `attempt == max_retries - 1` is `fuel = 0` here and
`attempt < max_retries - 1` is `fuel ≠ 0`. -/
def analyzeGo : Nat → Nat → Outcome
  | attempt, 0 => { call := .failure .exhausted, attempts := attempt, waits := [] }
  | attempt, fuel + 1 =>
    match responses attempt with
    | .http status content retryAfter errorMessage =>
      if status = 200 then
        match loads (cleanContent content) with
        | some j => { call := .success j, attempts := attempt + 1, waits := [] }
        | none =>
          if fuel = 0 then { call := .failure .parseFailure, attempts := attempt + 1, waits := [] }
          else withWait 2 (analyzeGo (attempt + 1) fuel)
      else if status = 429 then
        let wait :=
          match handle_rate_limit_error retryAfter errorMessage with
          | some t =>
            if t = 0 then calculate_wait_time base cap attempt (rand attempt)
            else min ((t : ℚ) + 5) cap
          | none => calculate_wait_time base cap attempt (rand attempt)
        withWait wait (analyzeGo (attempt + 1) fuel)
      else if 500 ≤ status then
        withWait (calculate_wait_time base cap attempt (rand attempt)) (analyzeGo (attempt + 1) fuel)
      else if 400 ≤ status then
        { call := .failure (.clientError status), attempts := attempt + 1, waits := [] }
      else
        if fuel = 0 then { call := .failure (.otherStatus status), attempts := attempt + 1, waits := [] }
        else withWait (calculate_wait_time base cap attempt (rand attempt)) (analyzeGo (attempt + 1) fuel)
    | .timeout =>
      if fuel = 0 then { call := .failure .timeoutFailure, attempts := attempt + 1, waits := [] }
      else withWait (calculate_wait_time base cap attempt (rand attempt)) (analyzeGo (attempt + 1) fuel)
    | .connectionError =>
      if fuel = 0 then { call := .failure .connectionFailure, attempts := attempt + 1, waits := [] }
      else withWait (calculate_wait_time base cap attempt (rand attempt)) (analyzeGo (attempt + 1) fuel)
    | .requestException =>
      if fuel = 0 then { call := .failure .requestFailure, attempts := attempt + 1, waits := [] }
      else withWait (calculate_wait_time base cap attempt (rand attempt)) (analyzeGo (attempt + 1) fuel)

/-- `analyze_case` (chatgpt_client.py lines 114-251): run the retry loop
from attempt 0 with `max_retries` iterations available. -/
def analyze_case (maxRetries : Nat) : Outcome :=
  analyzeGo loads responses rand base cap 0 maxRetries

end Orchestrator

/-- What the Python caller of `analyze_case` observes: the parsed JSON
on success, `None` on every failure path. -/
def pythonReturn : CallResult → Option Json
  | .success j => some j
  | .failure _ => none

/-! ## The batch driver (`main` of main_json_processor.py) -/

/-- A Python dict with JSON values, as an association list with the
first binding of a key authoritative. -/
abbrev CaseDict := List (List Char × Json)

def dGet (d : CaseDict) (k : List Char) : Option Json :=
  match d with
  | [] => none
  | (k', v) :: t => if k' = k then some v else dGet t k

def dSet (d : CaseDict) (k : List Char) (v : Json) : CaseDict :=
  match d with
  | [] => [(k, v)]
  | (k', v') :: t => if k' = k then (k, v) :: t else (k', v') :: dSet t k v

def kFilenameU : List Char := "Filename".toList
def kFilenameL : List Char := "filename".toList
def kCaseID : List Char := "CaseID".toList
def kIndex : List Char := "index".toList
def kBackgroundU : List Char := "Background".toList
def kBackgroundL : List Char := "background".toList
def kDefKey : List Char := "def_key".toList

/-- Lines 138-142 of main_json_processor.py: fill `Filename` when it is
absent or falsy, from `filename` if present, else the source file name. -/
def fillFilename (c : CaseDict) (json_file : List Char) : CaseDict :=
  let keep :=
    match dGet c kFilenameU with
    | some v => v.truthy
    | none => false
  if keep then c
  else
    match dGet c kFilenameL with
    | some w => dSet c kFilenameU w
    | none => dSet c kFilenameU (.str json_file)

/-- Lines 144-145: fill `CaseID` from `index` when absent. -/
def fillCaseID (c : CaseDict) : CaseDict :=
  match dGet c kCaseID with
  | some _ => c
  | none =>
    match dGet c kIndex with
    | some v => dSet c kCaseID v
    | none => c

/-- Lines 147-151: fill `Background` from `background` when absent,
wrapping a plain string into a one-element list. -/
def fillBackground (c : CaseDict) : CaseDict :=
  match dGet c kBackgroundU with
  | some _ => c
  | none =>
    match dGet c kBackgroundL with
    | some (.str s) => dSet c kBackgroundU (.arr [.str s])
    | some v => dSet c kBackgroundU v
    | none => c

/-- The in-place normalization the driver applies to each case dict
(lines 138-151), as one pure function. -/
def normalizeCase (c : CaseDict) (json_file : List Char) : CaseDict :=
  fillBackground (fillCaseID (fillFilename c json_file))

/-- `validate_case_data` (main_json_processor.py lines 26-40):
membership tests only. -/
def validate_case_data (c : CaseDict) : Bool :=
  ((dGet c kCaseID).isSome || (dGet c kIndex).isSome)
    && (dGet c kDefKey).isSome
    && ((dGet c kBackgroundU).isSome || (dGet c kBackgroundL).isSome)

/-- The error types the driver writes into failure ledger entries
(strings "Invalid case data", "API analysis failed",
"Processing exception" in the source). -/
inductive ErrorType where
  | invalidCaseData : ErrorType
  | apiAnalysisFailed : ErrorType
  | processingException : ErrorType
deriving DecidableEq

/-- One entry of `failed_cases_detail`. -/
structure FailureRecord where
  filename : Json
  file_source : List Char
  case_index : Nat
  errorType : ErrorType

/-- Behaviour of one `chatgpt_client.analyze_case` call as seen by the
driver: it returns a value (`None` or parsed JSON), or raises an
exception (e.g. a `KeyError` while extracting the message content,
which `analyze_case` does not catch). -/
inductive ClientBehavior where
  | value (r : Option Json) : ClientBehavior
  | raises : ClientBehavior

/-- The driver's run state: result collection, failure ledger, and the
trace of API calls issued (for counting network calls). -/
structure DriverState where
  results : List Json
  failed_cases_detail : List FailureRecord
  failed_cases_filenames : List Json
  calls : List CaseDict
  total_processed : Nat
  total_successful : Nat
  total_failed : Nat

def initState : DriverState :=
  { results := [], failed_cases_detail := [], failed_cases_filenames := []
    calls := [], total_processed := 0, total_successful := 0, total_failed := 0 }

/-- The per-case loop of `main` (main_json_processor.py lines 134-222)
over `cases_to_process`.  A non-dict element raises inside the per-case
`try`, and the `except` handler then raises again on
`single_case.get(...)`, so control reaches the per-file `except` and the
remaining cases of this file are abandoned with no ledger entry. -/
def processCases (client : CaseDict → ClientBehavior) (json_file : List Char) :
    List Json → Nat → DriverState → DriverState
  | [], _, st => st
  | c :: rest, case_index, st =>
    match c with
    | .obj fields =>
      let norm := normalizeCase fields json_file
      let fname := (dGet norm kFilenameU).getD (.str json_file)
      if validate_case_data norm then
        let st1 := { st with total_processed := st.total_processed + 1
                             calls := st.calls ++ [norm] }
        match client norm with
        | .raises =>
          processCases client json_file rest (case_index + 1)
            { st1 with
              failed_cases_detail := st1.failed_cases_detail ++
                [⟨fname, json_file, case_index + 51, .processingException⟩]
              failed_cases_filenames := st1.failed_cases_filenames ++ [fname]
              total_failed := st1.total_failed + 1 }
        | .value r =>
          if (match r with | some j => j.truthy | none => false) then
            processCases client json_file rest (case_index + 1)
              { st1 with results := st1.results ++ [r.getD .null]
                         total_successful := st1.total_successful + 1 }
          else
            processCases client json_file rest (case_index + 1)
              { st1 with
                failed_cases_detail := st1.failed_cases_detail ++
                  [⟨fname, json_file, case_index + 51, .apiAnalysisFailed⟩]
                failed_cases_filenames := st1.failed_cases_filenames ++ [fname]
                total_failed := st1.total_failed + 1 }
      else
        processCases client json_file rest (case_index + 1)
          { st with
            failed_cases_detail := st.failed_cases_detail ++
              [⟨fname, json_file, case_index + 51, .invalidCaseData⟩]
            failed_cases_filenames := st.failed_cases_filenames ++ [fname] }
    | _ => st

/-- The per-file body of `main` (lines 100-228): a file whose JSON
failed to load is skipped; a list is processed from index 50 on, and
only when it has more than 50 elements; a single dict is skipped
("would be in first 50"); any other JSON shape is invalid and skipped. -/
def processFile (client : CaseDict → ClientBehavior) (st : DriverState)
    (file : List Char × Option Json) : DriverState :=
  match file.2 with
  | none => st
  | some (.arr cases) =>
    if 50 < cases.length then processCases client file.1 (cases.drop 50) 0 st
    else st
  | some (.obj _) => st
  | some _ => st

/-- The `main` function of main_json_processor.py (Lean reserves the name `main`), over the discovered input files
(name and loaded JSON content).  Note: the run state is initialised
empty; no prior output is loaded. -/
def mainDriver (client : CaseDict → ClientBehavior)
    (files : List (List Char × Option Json)) : DriverState :=
  files.foldl (processFile client) initState


/-! ## Concrete fixtures for witnesses and counterexamples -/

/-- Is the response an HTTP response with a 5xx status? -/
def isServer5xx : ApiResponse → Bool
  | .http status _ _ _ => decide (500 ≤ status)
  | _ => false

/-- A trivial parse function (nothing parses). -/
def loads0 : List Char → Option Json := fun _ => none

/-- A parse function defined only on the payload `['a']`. -/
def loadsA : List Char → Option Json :=
  fun t => if t = ['a'] then some (.bool true) else none

/-- A parse function mapping the payload `['a']` to the empty object. -/
def loadsEmptyObj : List Char → Option Json :=
  fun t => if t = ['a'] then some (.obj []) else none

def randHalf : Nat → ℚ := fun _ => 1/2

/-- A stubbed endpoint returning HTTP 500 on every attempt. -/
def responses500 : Nat → ApiResponse := fun _ => .http 500 [] none none

/-- A stubbed endpoint returning HTTP 404 on every attempt. -/
def responses404 : Nat → ApiResponse := fun _ => .http 404 [] none none

/-- A stubbed endpoint returning HTTP 429 with header `Retry-After: 0`. -/
def responsesRA0 : Nat → ApiResponse := fun _ => .http 429 [] (some 0) none

def msg429 : List Char := "Rate limit reached. Try again in 10s".toList

/-- A stubbed endpoint returning HTTP 429 with no `Retry-After` header
and a rate-limit error message in the body. -/
def responses429msg : Nat → ApiResponse := fun _ => .http 429 [] none (some msg429)

/-- A stubbed endpoint returning HTTP 200 with fixed message content. -/
def respOf (s : List Char) : Nat → ApiResponse := fun _ => .http 200 s none none

/-- `s` wrapped in a leading ```json fence and a trailing ``` fence. -/
def wrapJsonFence (s : List Char) : List Char :=
  fenceJsonLit ++ '\n' :: (s ++ '\n' :: fence3)

/-- `s` wrapped in plain ``` fences. -/
def wrapFence (s : List Char) : List Char :=
  fence3 ++ '\n' :: (s ++ '\n' :: fence3)

/-- A driver client built from an orchestrator run: every case gets the
Python return value of that `analyze_case` outcome. -/
def clientFrom (loads : List Char → Option Json) (responses : Nat → ApiResponse)
    (rand : Nat → ℚ) (base cap : ℚ) (mr : Nat) : CaseDict → ClientBehavior :=
  fun _ => .value (pythonReturn (analyze_case loads responses rand base cap mr).call)

/-- A valid case dict: has `CaseID`, `def_key` and `Background`. -/
def goodFields : CaseDict :=
  [(kCaseID, .num 1), (kDefKey, .str ['d']), (kBackgroundU, .arr [.str ['b']])]

def goodCase : Json := .obj goodFields

/-- A valid case dict with a distinguishing `CaseID`. -/
def caseN (n : ℚ) : Json :=
  .obj [(kCaseID, .num n), (kDefKey, .str ['d']), (kBackgroundU, .arr [.str ['b']])]

def srcName : List Char := ['f']

/-- A client for which every case succeeds with a truthy payload. -/
def clientGood : CaseDict → ClientBehavior := fun _ => .value (some (.bool true))

/-- One input file holding 51 cases; only the case past index 50 is
processed by the driver. -/
def filesC1 : List (List Char × Option Json) :=
  [(srcName, some (.arr (List.replicate 50 goodCase ++ [caseN 1])))]

/-- One input file holding a single case object. -/
def filesSingleObj : List (List Char × Option Json) :=
  [(srcName, some (.obj goodFields))]

/-- A client that raises exactly on the cases with `CaseID` 4 or 8. -/
def clientC9 : CaseDict → ClientBehavior := fun c =>
  match dGet c kCaseID with
  | some (.num q) =>
    if q = 4 then .raises else if q = 8 then .raises else .value (some (.bool true))
  | _ => .value (some (.bool true))

/-- 60 cases: the 10 processed ones are `caseN 1` .. `caseN 10`, and the
ones at in-batch indices 3 and 7 (`caseN 4`, `caseN 8`) raise. -/
def filesC9 : List (List Char × Option Json) :=
  [(srcName, some (.arr (List.replicate 50 goodCase ++
    [caseN 1, caseN 2, caseN 3, caseN 4, caseN 5, caseN 6, caseN 7, caseN 8, caseN 9, caseN 10])))]

/-- 52 cases where the first processed one is a non-mapping element. -/
def filesC9abort : List (List Char × Option Json) :=
  [(srcName, some (.arr (List.replicate 50 goodCase ++ [Json.num 0, caseN 1])))]

/-- A batch of 10 cases where the cases at indices 3 and 7 are
non-mapping elements (they raise during normalization). -/
def filesC9small : List (List Char × Option Json) :=
  [(srcName, some (.arr
    [caseN 1, caseN 2, caseN 3, Json.num 0, caseN 5, caseN 6, caseN 7, Json.num 0, caseN 9, caseN 10]))]

/-- A raw case carrying both a truthy `Filename` and a `filename`. -/
def fieldsC8 : CaseDict :=
  [(kFilenameU, .str ['A']), (kFilenameL, .str ['B']),
   (kCaseID, .num 1), (kDefKey, .str ['d']), (kBackgroundU, .arr [.str ['b']])]

/-! ## Helper lemmas about the orchestrator -/

theorem withWait_call (w : ℚ) (o : Outcome) : (withWait w o).call = o.call := rfl

theorem withWait_attempts (w : ℚ) (o : Outcome) : (withWait w o).attempts = o.attempts := rfl

theorem analyzeGo_attempts_le (loads : List Char → Option Json) (responses : Nat → ApiResponse)
    (rand : Nat → ℚ) (base cap : ℚ) :
    ∀ fuel attempt, (analyzeGo loads responses rand base cap attempt fuel).attempts ≤ attempt + fuel := by
  intro fuel
  induction fuel with
  | zero => intro attempt; simp [analyzeGo]
  | succ n ih =>
    intro attempt
    have hrec := ih (attempt + 1)
    cases hr : responses attempt <;> simp only [analyzeGo, hr] <;> repeat' split
    all_goals dsimp only [withWait_attempts]
    all_goals omega

theorem analyzeGo_all500 (loads : List Char → Option Json) (responses : Nat → ApiResponse)
    (rand : Nat → ℚ) (base cap : ℚ)
    (h : ∀ n, isServer5xx (responses n) = true) :
    ∀ fuel attempt,
      (analyzeGo loads responses rand base cap attempt fuel).call = .failure .exhausted ∧
      (analyzeGo loads responses rand base cap attempt fuel).attempts = attempt + fuel := by
  intro fuel
  induction fuel with
  | zero => intro attempt; simp [analyzeGo]
  | succ n ih =>
    intro attempt
    have h5 := h attempt
    cases hr : responses attempt with
    | http status content ra em =>
      rw [hr] at h5
      have hs : 500 ≤ status := by simpa [isServer5xx] using h5
      have hrec := ih (attempt + 1)
      simp only [analyzeGo, hr]
      rw [if_neg (by omega : ¬ status = 200), if_neg (by omega : ¬ status = 429), if_pos hs]
      refine ⟨by rw [withWait_call]; exact hrec.1, ?_⟩
      rw [withWait_attempts, hrec.2]; omega
    | timeout => rw [hr] at h5; simp [isServer5xx] at h5
    | connectionError => rw [hr] at h5; simp [isServer5xx] at h5
    | requestException => rw [hr] at h5; simp [isServer5xx] at h5

/-- C3: for every run of analyze_case in which the endpoint returns
HTTP 500 on every attempt, the orchestrator issues exactly max_retries
HTTP attempts and then returns a terminal failure through the
retries-exhausted return path; and for every possible sequence of
responses the total number of attempts never exceeds max_retries. -/
theorem C3_server_error_exhausts_retries
    (loads : List Char → Option Json) (rand : Nat → ℚ) (base cap : ℚ) (mr : Nat) :
    (∀ responses : Nat → ApiResponse, (∀ n, isServer5xx (responses n) = true) →
      (analyze_case loads responses rand base cap mr).call = .failure .exhausted ∧
      (analyze_case loads responses rand base cap mr).attempts = mr) ∧
    (∀ responses : Nat → ApiResponse,
      (analyze_case loads responses rand base cap mr).attempts ≤ mr) := by
  constructor
  · intro responses h
    have := analyzeGo_all500 loads responses rand base cap h mr 0
    simpa [analyze_case] using this
  · intro responses
    have := analyzeGo_attempts_le loads responses rand base cap mr 0
    simpa [analyze_case] using this

/-- Witness for C3 at a concrete stub: max_retries 6, endpoint always
HTTP 500. -/
theorem C3_witness :
    (∀ n, isServer5xx (responses500 n) = true) ∧
    (analyze_case loads0 responses500 randHalf (9/5) 45 6).call = .failure .exhausted ∧
    (analyze_case loads0 responses500 randHalf (9/5) 45 6).attempts = 6 :=
  ⟨fun _ => rfl,
   (C3_server_error_exhausts_retries loads0 randHalf (9/5) 45 6).1 responses500 (fun _ => rfl)⟩

/-- C4: a response whose status is a 4xx other than 429 on the first
attempt makes the run terminal immediately: exactly 1 attempt, returning
through the client-error return path, whatever the remaining responses
would have been. -/
theorem C4_client_error_single_attempt
    (loads : List Char → Option Json) (responses : Nat → ApiResponse) (rand : Nat → ℚ)
    (base cap : ℚ) (mr : Nat) (status : Nat) (content : List Char)
    (ra : Option Nat) (em : Option (List Char))
    (hmr : 1 ≤ mr)
    (h0 : responses 0 = .http status content ra em)
    (h400 : 400 ≤ status) (h500 : status < 500) (h429 : status ≠ 429) :
    (analyze_case loads responses rand base cap mr).call = .failure (.clientError status) ∧
    (analyze_case loads responses rand base cap mr).attempts = 1 := by
  obtain ⟨n, rfl⟩ : ∃ n, mr = n + 1 := ⟨mr - 1, by omega⟩
  simp only [analyze_case, analyzeGo, h0]
  rw [if_neg (by omega : ¬ status = 200), if_neg h429,
    if_neg (by omega : ¬ 500 ≤ status), if_pos h400]
  exact ⟨rfl, rfl⟩

/-- Witness for C4: a stubbed endpoint returning HTTP 404 makes exactly
1 attempt and returns a terminal client error. -/
theorem C4_witness :
    (1 ≤ 6 ∧ responses404 0 = .http 404 [] none none ∧ 400 ≤ 404 ∧ 404 < 500 ∧ 404 ≠ 429) ∧
    (analyze_case loads0 responses404 randHalf (9/5) 45 6).call = .failure (.clientError 404) ∧
    (analyze_case loads0 responses404 randHalf (9/5) 45 6).attempts = 1 :=
  ⟨⟨by omega, rfl, by omega, by omega, by omega⟩,
   C4_client_error_single_attempt loads0 responses404 randHalf (9/5) 45 6 404 [] none none
     (by omega) rfl (by omega) (by omega) (by omega)⟩

/-- C5 counterexample: with `Retry-After: 0` a retry-after value is
available (`_handle_rate_limit_error` returns 0), yet `if suggested_wait:`
treats 0 as absent, so the wait before the next attempt (with random
draw 1/2) is the exponential backoff value 1, not min(0+5, 45) = 5. -/
theorem C5_retry_after_zero_counterexample :
    handle_rate_limit_error (some 0) none = some 0 ∧
    (analyze_case loads0 responsesRA0 randHalf (9/5) 45 2).waits.head? = some 1 ∧
    (analyze_case loads0 responsesRA0 randHalf (9/5) 45 2).waits.head? ≠
      some (min ((0 : ℚ) + 5) 45) := by
  have h2 : (analyze_case loads0 responsesRA0 randHalf (9/5) 45 2).waits.head? = some 1 := by
    simp only [analyze_case, show (2:Nat) = 1+1 from rfl, analyzeGo, responsesRA0]
    norm_num [handle_rate_limit_error, withWait, calculate_wait_time, base_wait, randHalf,
      min_def, max_def]
  refine ⟨rfl, h2, ?_⟩
  rw [h2]
  norm_num [min_def]

/-- C5 amended: when the endpoint responds HTTP 429 and the extracted
server-supplied retry-after value `t` is at least 1 (a value of 0 is
discarded by the Python truthiness test and falls back to exponential
backoff), the orchestrator waits exactly min(t + 5, backoff_cap) seconds
before its next attempt. -/
theorem C5_retry_after_positive_amended
    (loads : List Char → Option Json) (responses : Nat → ApiResponse) (rand : Nat → ℚ)
    (base cap : ℚ) (mr : Nat) (content : List Char) (retryAfter : Option Nat)
    (errorMessage : Option (List Char)) (t : Nat)
    (hmr : 1 ≤ mr)
    (h0 : responses 0 = .http 429 content retryAfter errorMessage)
    (ht : handle_rate_limit_error retryAfter errorMessage = some t)
    (ht1 : 1 ≤ t) :
    (analyze_case loads responses rand base cap mr).waits.head? =
      some (min ((t : ℚ) + 5) cap) := by
  obtain ⟨n, rfl⟩ : ∃ n, mr = n + 1 := ⟨mr - 1, by omega⟩
  simp only [analyze_case, analyzeGo, h0, ht]
  rw [if_neg (by omega : ¬ t = 0)]
  simp [withWait]

/-- Witness for C5 (amended): HTTP 429 whose body says
"Rate limit reached. Try again in 10s", backoff_cap 45: the next wait is
exactly min(10+5, 45) = 15 seconds. -/
theorem C5_witness :
    (analyze_case loads0 responses429msg randHalf (9/5) 45 6).waits.head? = some 15 := by
  have h := C5_retry_after_positive_amended loads0 responses429msg randHalf (9/5) 45 6
    [] none (some msg429) 10 (by omega) rfl (by decide) (by omega)
  rw [h]
  norm_num [min_def]

/-- C6: with the defaults backoff_base = 1.8 and backoff_cap = 45, for
every attempt n and every random draw r in [0,1] the computed wait lies
in [max(1, 0.8*min(1.8^n, 45)), max(1, 1.2*min(1.8^n, 45))] (jitter at
most ±20 percent, floored at 1 second); the un-jittered wait
min(1.8^n, 45) is non-decreasing over attempts 0..3 and never exceeds
the cap of 45. -/
theorem C6_backoff_bounds :
    (∀ (n : Nat) (r : ℚ), 0 ≤ r → r ≤ 1 →
      max 1 ((4/5) * base_wait (9/5) 45 n) ≤ calculate_wait_time (9/5) 45 n r ∧
      calculate_wait_time (9/5) 45 n r ≤ max 1 ((6/5) * base_wait (9/5) 45 n)) ∧
    (base_wait (9/5) 45 0 ≤ base_wait (9/5) 45 1 ∧
     base_wait (9/5) 45 1 ≤ base_wait (9/5) 45 2 ∧
     base_wait (9/5) 45 2 ≤ base_wait (9/5) 45 3) ∧
    (∀ n, base_wait (9/5) 45 n ≤ 45) := by
  refine ⟨?_, ?_, ?_⟩
  · intro n r hr0 hr1
    have hw : (0:ℚ) ≤ base_wait (9/5) 45 n :=
      le_min (pow_nonneg (by norm_num) n) (by norm_num)
    simp only [calculate_wait_time]
    set w := base_wait (9/5) 45 n with hwdef
    constructor
    · apply max_le_max (le_refl 1)
      nlinarith [mul_nonneg hw hr0]
    · apply max_le_max (le_refl 1)
      nlinarith [mul_nonneg hw (sub_nonneg.mpr hr1)]
  · norm_num [base_wait, min_def]
  · intro n
    exact min_le_right _ _

/-- Witness for C6 at attempt 2 with random draw 1/2. -/
theorem C6_witness :
    ((0:ℚ) ≤ 1/2 ∧ (1/2:ℚ) ≤ 1) ∧
    (max 1 ((4/5) * base_wait (9/5) 45 2) ≤ calculate_wait_time (9/5) 45 2 (1/2) ∧
     calculate_wait_time (9/5) 45 2 (1/2) ≤ max 1 ((6/5) * base_wait (9/5) 45 2)) :=
  ⟨⟨by norm_num, by norm_num⟩, C6_backoff_bounds.1 2 (1/2) (by norm_num) (by norm_num)⟩

/-! ## Helper lemmas about Python string stripping -/

theorem stripLeft_nl (l : List Char) : stripLeft ('\n' :: l) = stripLeft l := by
  simp [stripLeft, isSpaceChar]

theorem stripLeft_cons_not_space (c : Char) (l : List Char) (h : isSpaceChar c = false) :
    stripLeft (c :: l) = c :: l := by
  simp [stripLeft, h]

theorem stripLeft_length_le (l : List Char) : (stripLeft l).length ≤ l.length := by
  induction l with
  | nil => simp [stripLeft]
  | cons c t ih =>
    cases h : isSpaceChar c
    · simp [stripLeft, h]
    · simp only [stripLeft, h, if_pos]
      simp only [List.length_cons]
      omega

theorem stripLeft_fix_cases (l : List Char) (h : stripLeft l = l) :
    l = [] ∨ ∃ c t, l = c :: t ∧ isSpaceChar c = false := by
  cases l with
  | nil => exact Or.inl rfl
  | cons c t =>
    refine Or.inr ⟨c, t, rfl, ?_⟩
    cases hc : isSpaceChar c
    · rfl
    · exfalso
      simp only [stripLeft, hc, if_pos] at h
      have hle := stripLeft_length_le t
      rw [h] at hle
      simp only [List.length_cons] at hle
      omega

theorem stripLeft_of_stripRight_fix (s : List Char) (hr : stripRight s = s) :
    stripLeft s.reverse = s.reverse := by
  have h := congrArg List.reverse hr
  simpa [stripRight] using h

/-- Stripping `"\n" ++ s ++ "\n"` recovers a string `s` that carries no
leading or trailing whitespace. -/
theorem pyStrip_wrap_nl (s : List Char) (hl : stripLeft s = s) (hr : stripRight s = s) :
    pyStrip ('\n' :: (s ++ ['\n'])) = s := by
  cases s with
  | nil => rfl
  | cons a t =>
    have hfix : stripLeft ((a :: t).reverse) = (a :: t).reverse :=
      stripLeft_of_stripRight_fix _ hr
    obtain hnil | ⟨c, u, hcu, hcs⟩ := stripLeft_fix_cases _ hfix
    · exact absurd hnil (by simp)
    · have h1 : stripRight ('\n' :: ((a :: t) ++ ['\n'])) = '\n' :: (a :: t) := by
        rw [stripRight]
        have hrev : ('\n' :: ((a :: t) ++ ['\n'])).reverse =
            '\n' :: ((a :: t).reverse ++ ['\n']) := by simp
        rw [hrev, stripLeft_nl, hcu]
        rw [show (c :: u) ++ ['\n'] = c :: (u ++ ['\n']) from rfl]
        rw [stripLeft_cons_not_space c _ hcs]
        have : (c :: (u ++ ['\n'])).reverse = '\n' :: ((c :: u).reverse) := by simp
        rw [this, ← hcu, List.reverse_reverse]
      rw [pyStrip, h1, stripLeft_nl, hl]

theorem pyStrip_fix (l : List Char) (c d : Char) (t u : List Char)
    (hc : isSpaceChar c = false) (hd : isSpaceChar d = false)
    (h1 : l = c :: t) (h2 : l = u ++ [d]) : pyStrip l = l := by
  have hsr : stripRight l = l := by
    rw [h2, stripRight]
    have : (u ++ [d]).reverse = d :: u.reverse := by simp
    rw [this, stripLeft_cons_not_space d _ hd]
    simp
  rw [pyStrip, hsr, h1, stripLeft_cons_not_space c _ hc]

theorem startsWithL_append_self (p r : List Char) : startsWithL p (p ++ r) = true := by
  induction p with
  | nil => rfl
  | cons c t ih => simpa [startsWithL] using ih

theorem startsWithL_of_append (p q l : List Char)
    (h : startsWithL (p ++ q) l = true) : startsWithL p l = true := by
  induction p generalizing l with
  | nil => rfl
  | cons c t ih =>
    cases l with
    | nil => simp [startsWithL] at h
    | cons d m =>
      simp only [List.cons_append, startsWithL] at h ⊢
      by_cases hcd : c = d
      · rw [if_pos hcd] at h ⊢
        exact ih m h
      · rw [if_neg hcd] at h
        exact absurd h (by simp)

theorem endsWithL_append_self (p l : List Char) : endsWithL p (l ++ p) = true := by
  rw [endsWithL, List.reverse_append]
  exact startsWithL_append_self _ _

theorem dropRightL_append (p l : List Char) : dropRightL p.length (l ++ p) = l := by
  rw [dropRightL, List.reverse_append]
  rw [show p.length = p.reverse.length by simp, List.drop_left, List.reverse_reverse]

/-! ## Behaviour of the code-fence cleaning -/

theorem cleanContent_id (s : List Char) (hl : stripLeft s = s) (hr : stripRight s = s)
    (hs : startsWithL fence3 s = false) (he : endsWithL fence3 s = false) :
    cleanContent s = s := by
  have hstrip : pyStrip s = s := by rw [pyStrip, hr, hl]
  have hsj : startsWithL fenceJsonLit s = false := by
    cases hj : startsWithL fenceJsonLit s
    · rfl
    · have hj2 : startsWithL (fence3 ++ ['j', 's', 'o', 'n']) s = true := hj
      have h3 := startsWithL_of_append _ _ _ hj2
      rw [hs] at h3
      exact absurd h3 (by simp)
  simp [cleanContent, hstrip, hsj, hs, he]

theorem cleanContent_wrapJson (s : List Char) (hl : stripLeft s = s) (hr : stripRight s = s) :
    cleanContent (wrapJsonFence s) = s := by
  have hfix : pyStrip (wrapJsonFence s) = wrapJsonFence s := by
    apply pyStrip_fix _ backquote backquote
      (backquote :: backquote :: 'j' :: 's' :: 'o' :: 'n' :: ('\n' :: (s ++ '\n' :: fence3)))
      (fenceJsonLit ++ '\n' :: (s ++ ['\n', backquote, backquote]))
    · decide
    · decide
    · rfl
    · simp [wrapJsonFence, fence3]
  have hrest : '\n' :: (s ++ '\n' :: fence3) = ('\n' :: (s ++ ['\n'])) ++ fence3 := by simp
  have h1 : startsWithL fenceJsonLit (wrapJsonFence s) = true := by
    rw [wrapJsonFence]; exact startsWithL_append_self _ _
  have hdrop : (wrapJsonFence s).drop 7 = '\n' :: (s ++ '\n' :: fence3) := by
    rw [wrapJsonFence, show (7 : Nat) = fenceJsonLit.length from rfl, List.drop_left]
  have h2 : endsWithL fence3 ('\n' :: (s ++ '\n' :: fence3)) = true := by
    rw [hrest]; exact endsWithL_append_self _ _
  simp only [cleanContent, hfix, h1, hdrop]
  simp only [Bool.false_eq_true, if_false, if_true]
  simp only [h2]
  simp only [if_true]
  rw [hrest, show (3 : Nat) = fence3.length from rfl, dropRightL_append]
  exact pyStrip_wrap_nl s hl hr

theorem cleanContent_wrapFence (s : List Char) (hl : stripLeft s = s) (hr : stripRight s = s) :
    cleanContent (wrapFence s) = s := by
  have hfix : pyStrip (wrapFence s) = wrapFence s := by
    apply pyStrip_fix _ backquote backquote
      (backquote :: backquote :: ('\n' :: (s ++ '\n' :: fence3)))
      (fence3 ++ '\n' :: (s ++ ['\n', backquote, backquote]))
    · decide
    · decide
    · rfl
    · simp [wrapFence, fence3]
  have hnotjson : startsWithL fenceJsonLit (wrapFence s) = false := by
    simp [wrapFence, fenceJsonLit, fence3, startsWithL]
  have hrest : '\n' :: (s ++ '\n' :: fence3) = ('\n' :: (s ++ ['\n'])) ++ fence3 := by simp
  have h1 : startsWithL fence3 (wrapFence s) = true := by
    rw [wrapFence]; exact startsWithL_append_self _ _
  have hdrop : (wrapFence s).drop 3 = '\n' :: (s ++ '\n' :: fence3) := by
    rw [wrapFence, show (3 : Nat) = fence3.length from rfl, List.drop_left]
  have h2 : endsWithL fence3 ('\n' :: (s ++ '\n' :: fence3)) = true := by
    rw [hrest]; exact endsWithL_append_self _ _
  simp only [cleanContent, hfix, hnotjson, h1, hdrop]
  simp only [Bool.false_eq_true, if_false, if_true]
  simp only [h2]
  simp only [if_true]
  rw [hrest, show (3 : Nat) = fence3.length from rfl, dropRightL_append]
  exact pyStrip_wrap_nl s hl hr

theorem analyze_200_first (loads : List Char → Option Json) (responses : Nat → ApiResponse)
    (rand : Nat → ℚ) (base cap : ℚ) (n : Nat) (content : List Char)
    (ra : Option Nat) (em : Option (List Char)) (j : Json)
    (h0 : responses 0 = .http 200 content ra em)
    (hparse : loads (cleanContent content) = some j) :
    (analyze_case loads responses rand base cap (n + 1)).call = .success j ∧
    (analyze_case loads responses rand base cap (n + 1)).attempts = 1 := by
  simp only [analyze_case, analyzeGo, h0, hparse]
  exact ⟨rfl, rfl⟩

/-- C7: for every payload s with no surrounding whitespace or fences
that the parse function accepts, an HTTP 200 response whose message
content is s itself, or s wrapped in ```json ... ``` fences, or s
wrapped in plain ``` fences, makes analyze_case return the parse of s
unchanged. -/
theorem C7_roundtrip (loads : List Char → Option Json) (rand : Nat → ℚ) (base cap : ℚ)
    (mr : Nat) (s : List Char) (j : Json)
    (hl : stripLeft s = s) (hr : stripRight s = s)
    (hs : startsWithL fence3 s = false) (he : endsWithL fence3 s = false)
    (hload : loads s = some j) (hmr : 1 ≤ mr) :
    (analyze_case loads (respOf s) rand base cap mr).call = .success j ∧
    (analyze_case loads (respOf (wrapJsonFence s)) rand base cap mr).call = .success j ∧
    (analyze_case loads (respOf (wrapFence s)) rand base cap mr).call = .success j := by
  obtain ⟨n, rfl⟩ : ∃ n, mr = n + 1 := ⟨mr - 1, by omega⟩
  refine ⟨?_, ?_, ?_⟩
  · exact (analyze_200_first loads _ rand base cap n s none none j rfl
      (by rw [cleanContent_id s hl hr hs he, hload])).1
  · exact (analyze_200_first loads _ rand base cap n (wrapJsonFence s) none none j rfl
      (by rw [cleanContent_wrapJson s hl hr, hload])).1
  · exact (analyze_200_first loads _ rand base cap n (wrapFence s) none none j rfl
      (by rw [cleanContent_wrapFence s hl hr, hload])).1

/-- Witness for C7 with the concrete payload `"a"`. -/
theorem C7_witness :
    (analyze_case loadsA (respOf ['a']) randHalf (9/5) 45 6).call = .success (.bool true) ∧
    (analyze_case loadsA (respOf (wrapJsonFence ['a'])) randHalf (9/5) 45 6).call =
      .success (.bool true) ∧
    (analyze_case loadsA (respOf (wrapFence ['a'])) randHalf (9/5) 45 6).call =
      .success (.bool true) :=
  C7_roundtrip loadsA randHalf (9/5) 45 6 ['a'] (.bool true)
    (by decide) (by decide) (by decide) (by decide) rfl (by omega)

/-! ## Helper lemmas about the case-dict operations -/

theorem dGet_dSet_self (d : CaseDict) (k : List Char) (v : Json) :
    dGet (dSet d k v) k = some v := by
  induction d with
  | nil => simp [dGet, dSet]
  | cons p t ih =>
    obtain ⟨k', v'⟩ := p
    by_cases h : k' = k
    · simp [dSet, dGet, h]
    · simp [dSet, dGet, h, ih]

theorem dGet_dSet_ne (d : CaseDict) (kset kq : List Char) (v : Json) (h : kset ≠ kq) :
    dGet (dSet d kset v) kq = dGet d kq := by
  induction d with
  | nil => simp [dGet, dSet, h]
  | cons p t ih =>
    obtain ⟨k', v'⟩ := p
    by_cases h2 : k' = kset
    · simp [dSet, dGet, h2, h]
    · simp [dSet, dGet, h2, ih]

theorem dGet_fillCaseID_other (c : CaseDict) (k : List Char) (hk : kCaseID ≠ k) :
    dGet (fillCaseID c) k = dGet c k := by
  rw [fillCaseID]
  cases h1 : dGet c kCaseID with
  | some v => rfl
  | none =>
    cases h2 : dGet c kIndex with
    | some v => exact dGet_dSet_ne _ _ _ _ hk
    | none => rfl

theorem dGet_fillBackground_other (c : CaseDict) (k : List Char) (hk : kBackgroundU ≠ k) :
    dGet (fillBackground c) k = dGet c k := by
  rw [fillBackground]
  cases h1 : dGet c kBackgroundU with
  | some v => rfl
  | none =>
    cases h2 : dGet c kBackgroundL with
    | some v =>
      cases v
      all_goals exact dGet_dSet_ne _ _ _ _ hk
    | none => rfl

theorem dGet_normalizeCase_filename (c : CaseDict) (src : List Char) :
    dGet (normalizeCase c src) kFilenameU = dGet (fillFilename c src) kFilenameU := by
  rw [normalizeCase, dGet_fillBackground_other _ _ (by decide),
    dGet_fillCaseID_other _ _ (by decide)]

/-- C8 counterexample: on a raw case carrying both a truthy `Filename`
("A") and a `filename` ("B"), the normalizer keeps the `Filename` value
"A"; the claim demands the `filename` value "B" win. -/
theorem C8_precedence_counterexample :
    dGet (normalizeCase fieldsC8 srcName) kFilenameU = some (.str ['A']) ∧
    (some (Json.str ['A']) : Option Json) ≠ some (.str ['B']) := by
  refine ⟨rfl, ?_⟩
  intro h
  simp only [Option.some.injEq, Json.str.injEq] at h
  exact absurd h (by decide)

/-- C8 amended: the normalized `Filename` is taken from the raw
`Filename` field when present and truthy (even when `filename` is also
present); otherwise from `filename` when present; otherwise from the
source file name. -/
theorem C8_precedence_amended (c : CaseDict) (src : List Char) :
    (∀ v, dGet c kFilenameU = some v → v.truthy = true →
      dGet (normalizeCase c src) kFilenameU = some v) ∧
    (∀ w, (dGet c kFilenameU = none ∨ ∃ v, dGet c kFilenameU = some v ∧ v.truthy = false) →
      dGet c kFilenameL = some w →
      dGet (normalizeCase c src) kFilenameU = some w) ∧
    ((dGet c kFilenameU = none ∨ ∃ v, dGet c kFilenameU = some v ∧ v.truthy = false) →
      dGet c kFilenameL = none →
      dGet (normalizeCase c src) kFilenameU = some (.str src)) := by
  refine ⟨?_, ?_, ?_⟩
  · intro v hv ht
    rw [dGet_normalizeCase_filename, fillFilename, hv]
    dsimp only
    rw [ht]
    simpa using hv
  · intro w hfalsy hw
    rw [dGet_normalizeCase_filename, fillFilename]
    have hkeep : (match dGet c kFilenameU with
        | some v => v.truthy
        | none => false) = false := by
      rcases hfalsy with h | ⟨v, hv, hvf⟩
      · rw [h]
      · rw [hv]; exact hvf
    rw [hkeep]
    simp only [Bool.false_eq_true, if_false]
    rw [hw]
    exact dGet_dSet_self _ _ _
  · intro hfalsy hw
    rw [dGet_normalizeCase_filename, fillFilename]
    have hkeep : (match dGet c kFilenameU with
        | some v => v.truthy
        | none => false) = false := by
      rcases hfalsy with h | ⟨v, hv, hvf⟩
      · rw [h]
      · rw [hv]; exact hvf
    rw [hkeep]
    simp only [Bool.false_eq_true, if_false]
    rw [hw]
    exact dGet_dSet_self _ _ _

/-- Witness for C8 (amended) on the concrete two-field case. -/
theorem C8_witness :
    dGet (normalizeCase fieldsC8 srcName) kFilenameU = some (.str ['A']) :=
  (C8_precedence_amended fieldsC8 srcName).1 (.str ['A']) rfl rfl

/-! ## Helper lemmas about the batch driver -/

theorem processCases_calls_length (client : CaseDict → ClientBehavior) (json_file : List Char) :
    ∀ (l : List Json) (idx : Nat) (st : DriverState),
      (∀ x ∈ l, ∃ f, x = Json.obj f ∧ validate_case_data (normalizeCase f json_file) = true) →
      (processCases client json_file l idx st).calls.length = st.calls.length + l.length := by
  intro l
  induction l with
  | nil => intro idx st _; simp [processCases]
  | cons c rest ih =>
    intro idx st h
    obtain ⟨f, hc, hval⟩ := h c (List.mem_cons_self _ _)
    subst hc
    have hrest := fun x hx => h x (List.mem_cons_of_mem _ hx)
    simp only [processCases, hval, if_true]
    cases client (normalizeCase f json_file) with
    | raises =>
      dsimp only
      rw [ih _ _ hrest]
      simp only [List.length_append, List.length_cons, List.length_nil]
      omega
    | value r =>
      dsimp only
      cases htr : (match r with | some j => j.truthy | none => false)
      · simp only [htr, Bool.false_eq_true, if_false]
        rw [ih _ _ hrest]
        simp only [List.length_append, List.length_cons, List.length_nil]
        omega
      · simp only [htr, if_true]
        rw [ih _ _ hrest]
        simp only [List.length_append, List.length_cons, List.length_nil]
        omega

/-- C1 counterexample: the driver has no prior-output input at all —
its run state is initialised empty — so "the second run started from
the first run's output" is the same function application as the first.
On a 51-case input whose one processed case succeeds, that (second) run
issues 1 network call for the already-succeeded case, not 0. -/
theorem C1_no_resumption_counterexample :
    (mainDriver clientGood filesC1).results.length = 1 ∧
    (mainDriver clientGood filesC1).calls.length = 1 ∧
    (mainDriver clientGood filesC1).calls.length ≠ 0 :=
  ⟨rfl, rfl, by decide⟩

/-- C1 amended: the Batch Driver keeps no cross-run state: every run
starts from an empty result collection and issues exactly one network
call for every valid mapping case past index 50 of a list-valued file,
regardless of any earlier run's output. -/
theorem C1_every_run_calls_all_valid_cases (client : CaseDict → ClientBehavior)
    (name : List Char) (cases_ : List Json)
    (h50 : 50 < cases_.length)
    (hv : ∀ x ∈ cases_.drop 50,
      ∃ f, x = Json.obj f ∧ validate_case_data (normalizeCase f name) = true) :
    (mainDriver client [(name, some (.arr cases_))]).calls.length = cases_.length - 50 := by
  simp only [mainDriver, List.foldl, processFile]
  rw [if_pos h50]
  rw [processCases_calls_length client name _ 0 initState hv]
  simp [initState]

/-- Witness for C1 (amended) on the 51-case fixture. -/
theorem C1_calls_witness :
    (mainDriver clientGood filesC1).calls.length = 1 := by
  have hv : ∀ x ∈ (List.replicate 50 goodCase ++ [caseN 1]).drop 50,
      ∃ f, x = Json.obj f ∧ validate_case_data (normalizeCase f srcName) = true := by
    intro x hx
    have hdrop : (List.replicate 50 goodCase ++ [caseN 1]).drop 50 = [caseN 1] := by
      nth_rewrite 1 [show (50 : Nat) = (List.replicate 50 goodCase).length by simp]
      rw [List.drop_left]
    rw [hdrop] at hx
    simp only [List.mem_singleton] at hx
    subst hx
    exact ⟨_, rfl, by rfl⟩
  have h := C1_every_run_calls_all_valid_cases clientGood srcName
    (List.replicate 50 goodCase ++ [caseN 1]) (by simp) hv
  simpa [filesC1] using h

/-- C2 counterexample: a file holding a single (valid) case object is
skipped entirely: no result, no API call, and no Failure Ledger entry
for the dropped case. -/
theorem C2_single_object_dropped_counterexample :
    (mainDriver clientGood filesSingleObj).results = [] ∧
    (mainDriver clientGood filesSingleObj).calls = [] ∧
    (mainDriver clientGood filesSingleObj).failed_cases_detail = [] :=
  ⟨rfl, rfl, rfl⟩

/-- C2 amended: the driver only processes cases at index 50 and beyond
inside list-valued files: a single-object file, and any list-valued
file with at most 50 cases, are skipped with no Failure Ledger entry,
no API call and no result. -/
theorem C2_skip_window_amended (client : CaseDict → ClientBehavior) (name : List Char)
    (fields : CaseDict) (cases_ : List Json) (hlen : cases_.length ≤ 50) :
    mainDriver client [(name, some (.obj fields))] = initState ∧
    mainDriver client [(name, some (.arr cases_))] = initState := by
  constructor
  · rfl
  · simp only [mainDriver, List.foldl, processFile]
    rw [if_neg (by omega)]

/-- Witness for C2 (amended) on a one-case list file. -/
theorem C2_skip_window_witness :
    mainDriver clientGood filesSingleObj = initState ∧
    mainDriver clientGood [(srcName, some (.arr [goodCase]))] = initState :=
  C2_skip_window_amended clientGood srcName goodFields [goodCase] (by simp)

/-- C9 counterexample: on a batch of 10 cases where the cases at
indices 3 and 7 raise during normalization (non-mapping elements), the
run produces 0 results and 0 ledger entries — not 8 and 2 — because
every case of a 10-element file falls inside the skipped first 50. -/
theorem C9_small_batch_counterexample :
    (mainDriver clientC9 filesC9small).results.length = 0 ∧
    (mainDriver clientC9 filesC9small).failed_cases_detail.length = 0 ∧
    ¬ ((mainDriver clientC9 filesC9small).results.length = 8 ∧
       (mainDriver clientC9 filesC9small).failed_cases_detail.length = 2) :=
  ⟨rfl, rfl, fun h => absurd h.1 (by decide)⟩

/-- C9 amended: only cases past the first 50 of a list file are
processed.  An exception raised while handling a processed mapping case
(here: the API client raising) is caught, recorded as one
"Processing exception" ledger entry carrying the case's 1-based index,
and the driver proceeds: with 60 cases of which the processed ones at
in-batch indices 3 and 7 raise, the run ends with exactly 8 results and
exactly 2 ledger entries for case indices 54 and 58.  An exception
during normalization of a non-mapping case instead aborts the remainder
of the file with no ledger entry (the `except` handler itself raises). -/
theorem C9_exception_isolation_amended :
    (mainDriver clientC9 filesC9).results.length = 8 ∧
    (mainDriver clientC9 filesC9).failed_cases_detail.map (fun fr => fr.case_index) = [54, 58] ∧
    (mainDriver clientC9 filesC9).failed_cases_detail.map (fun fr => fr.errorType) =
      [.processingException, .processingException] ∧
    (mainDriver clientC9 filesC9abort).results = [] ∧
    (mainDriver clientC9 filesC9abort).failed_cases_detail = [] :=
  ⟨rfl, rfl, rfl, rfl, rfl⟩

theorem mainDriver_filesC1_value_falsy (j : Json) (hfalsy : j.truthy = false) :
    (mainDriver (fun _ => ClientBehavior.value (some j)) filesC1).results = [] ∧
    (mainDriver (fun _ => ClientBehavior.value (some j)) filesC1).failed_cases_detail.map
      (fun fr => fr.errorType) = [.apiAnalysisFailed] ∧
    (mainDriver (fun _ => ClientBehavior.value (some j)) filesC1).calls.length = 1 := by
  have hdrop : (List.replicate 50 goodCase ++ [caseN 1]).drop 50 = [caseN 1] := by
    nth_rewrite 1 [show (50 : Nat) = (List.replicate 50 goodCase).length by simp]
    rw [List.drop_left]
  have hmain : mainDriver (fun _ => ClientBehavior.value (some j)) filesC1 =
      processCases (fun _ => ClientBehavior.value (some j)) srcName [caseN 1] 0 initState := by
    simp only [mainDriver, filesC1, List.foldl, processFile]
    rw [if_pos (by simp), hdrop]
  rw [hmain]
  simp only [processCases, caseN]
  rw [if_pos (show validate_case_data (normalizeCase
    [(kCaseID, .num 1), (kDefKey, .str ['d']), (kBackgroundU, .arr [.str ['b']])] srcName)
    = true from rfl)]
  simp only [hfalsy, Bool.false_eq_true, if_false]
  exact ⟨rfl, rfl, rfl⟩

/-- C10: when the endpoint returns HTTP 200 whose (fence-stripped)
content parses as a falsy JSON value, analyze_case returns that parsed
value as a success, but the Batch Driver's truthiness test then records
the case as an "API analysis failed" ledger entry and appends nothing
to the result collection: a successful call with an empty-but-valid
payload is counted as failed. -/
theorem C10_falsy_success_counted_failed (loads : List Char → Option Json) (rand : Nat → ℚ)
    (base cap : ℚ) (mr : Nat) (s : List Char) (j : Json)
    (hl : stripLeft s = s) (hr : stripRight s = s)
    (hs : startsWithL fence3 s = false) (he : endsWithL fence3 s = false)
    (hload : loads s = some j) (hfalsy : j.truthy = false) (hmr : 1 ≤ mr) :
    (analyze_case loads (respOf s) rand base cap mr).call = .success j ∧
    (mainDriver (clientFrom loads (respOf s) rand base cap mr) filesC1).results = [] ∧
    (mainDriver (clientFrom loads (respOf s) rand base cap mr) filesC1).failed_cases_detail.map
      (fun fr => fr.errorType) = [.apiAnalysisFailed] ∧
    (mainDriver (clientFrom loads (respOf s) rand base cap mr) filesC1).calls.length = 1 := by
  obtain ⟨n, rfl⟩ : ∃ n, mr = n + 1 := ⟨mr - 1, by omega⟩
  have hcall : (analyze_case loads (respOf s) rand base cap (n + 1)).call = .success j :=
    (analyze_200_first loads _ rand base cap n s none none j rfl
      (by rw [cleanContent_id s hl hr hs he, hload])).1
  have hclient : clientFrom loads (respOf s) rand base cap (n + 1) =
      (fun _ => ClientBehavior.value (some j)) := by
    funext c
    simp only [clientFrom, hcall]
    rfl
  have hdrv := mainDriver_filesC1_value_falsy j hfalsy
  rw [hclient]
  exact ⟨hcall, hdrv.1, hdrv.2.1, hdrv.2.2⟩

/-- Witness for C10 with the falsy payload `{}` (the empty object),
parsed from the one-character content `"a"` by a stub parse function. -/
theorem C10_witness :
    (analyze_case loadsEmptyObj (respOf ['a']) randHalf (9/5) 45 6).call = .success (.obj []) ∧
    (mainDriver (clientFrom loadsEmptyObj (respOf ['a']) randHalf (9/5) 45 6)
      filesC1).results = [] ∧
    (mainDriver (clientFrom loadsEmptyObj (respOf ['a']) randHalf (9/5) 45 6)
      filesC1).failed_cases_detail.map (fun fr => fr.errorType) = [.apiAnalysisFailed] ∧
    (mainDriver (clientFrom loadsEmptyObj (respOf ['a']) randHalf (9/5) 45 6)
      filesC1).calls.length = 1 :=
  C10_falsy_success_counted_failed loadsEmptyObj randHalf (9/5) 45 6 ['a'] (.obj [])
    (by decide) (by decide) (by decide) (by decide) rfl rfl (by omega)
